import Mathlib

/-!
# Drawer Stack Controller — verification development

Shallow embedding of the drawer-stack library (a React component stack for
URL-persisted, stacked drawer navigation) together with proofs about its
stack store, route resolver, drag-release decision and close choreography.

Sources embedded:
* `src/useDrawerStack.ts` — persisted-state derivation (`drawerStack`) and
  the five mutators (`pushDrawer`, `popDrawer`, `closeAllDrawers`,
  `replaceDrawer`, `replaceDrawerStack`).
* `src/routeUtils.ts` — `flattenRoutes` and `findRouteAndMatch`.
* `DrawerStack.tsx` — `handleDrawerClose`'s persisted-state mutation,
  the effective-stack depth computation, and `DrawerContent`'s resolution
  of a path to a drawer view.
* `CustomVerticalDrawer.tsx` — the drag-gesture clamp and the
  drag-release commit/cancel decision (`handleDragEnd`).

Conventions: JS numbers are modelled as exact rationals (ℚ) where fractional
arithmetic occurs and as `Nat`/`Int` for indices; `URLSearchParams` is
modelled as an ordered list of key/value string pairs (which is how the
class behaves for the operations the code uses: `getAll` returns values in
insertion order, `append` appends at the end, `delete` removes every pair
with the key while preserving the order of the rest).
-/

namespace DrawerStack

/-! ## Data model (`useDrawerStack.ts`) -/

/-- `DrawerStackItem` from `useDrawerStack.ts` (the optional `title` field is
never produced by the derivation and is omitted). -/
structure DrawerStackItem where
  id : String
  path : String
  level : Nat
deriving Repr, DecidableEq

/-- Helper for `deriveStack`: maps element at running index `i` to
`{id: "drawer-" + i, path, level: i}` (the `map((path, index) => ...)`
callback of the `drawerStack` memo). -/
def deriveStackAux (i : Nat) : List String → List DrawerStackItem
  | [] => []
  | p :: rest => ⟨"drawer-" ++ toString i, p, i⟩ :: deriveStackAux (i + 1) rest

/-- The `drawerStack` memo of `useDrawerStack.ts`: derives the drawer stack
from the persisted list of drawer paths
(`searchParams.getAll("drawer").map((path, index) => ({id, path, level}))`). -/
def deriveStack (persisted : List String) : List DrawerStackItem :=
  deriveStackAux 0 persisted

/-! ## URLSearchParams and Location model -/

/-- An ordered query string: the sequence of key/value pairs of a
`URLSearchParams` object. -/
abbrev SearchParams := List (String × String)

/-- `searchParams.getAll(key)`: the values of every pair with the given key,
in order. -/
def getAll (key : String) (ps : SearchParams) : List String :=
  (ps.filter (fun kv => kv.1 == key)).map Prod.snd

/-- `searchParams.delete(key)`: removes every pair with the given key,
preserving the order of the remaining pairs. -/
def deleteKey (key : String) (ps : SearchParams) : SearchParams :=
  ps.filter (fun kv => !(kv.1 == key))

/-- `searchParams.append(key, value)`: appends a pair at the end. -/
def appendParam (key value : String) (ps : SearchParams) : SearchParams :=
  ps ++ [(key, value)]

/-- The location the router reports: a pathname plus the query-parameter
pairs of its search string. -/
structure Location where
  pathname : String
  search : SearchParams
deriving Repr, DecidableEq

/-- The persisted drawer-path list of a location:
`searchParams.getAll("drawer")`. -/
def persistedList (loc : Location) : List String :=
  getAll "drawer" loc.search

/-! ## Mutators (`useDrawerStack.ts`)

Each mutator is embedded as the function from the current location to the
location passed to `navigate` (all navigations use `replace: false` and keep
`location.pathname`). `popDrawer` returns without navigating when the
persisted list is empty, so its result is the unchanged location. -/

/-- `pushDrawer(path)`: re-reads the current search params
(`new URLSearchParams(window.location.search)`) and appends
`("drawer", path)`. -/
def pushDrawer (path : String) (loc : Location) : Location :=
  { pathname := loc.pathname
    search := appendParam "drawer" path loc.search }

/-- `popDrawer()`: if no drawer params exist, returns without navigating;
otherwise deletes every drawer param and re-appends all but the last
(`drawerParams.slice(0, -1)`). -/
def popDrawer (loc : Location) : Location :=
  if (getAll "drawer" loc.search).length = 0 then loc
  else
    { pathname := loc.pathname
      search := deleteKey "drawer" loc.search ++
        (getAll "drawer" loc.search).dropLast.map (fun p => ("drawer", p)) }

/-- `closeAllDrawers()`: deletes every drawer param. -/
def closeAllDrawers (loc : Location) : Location :=
  { pathname := loc.pathname
    search := deleteKey "drawer" loc.search }

/-- `replaceDrawer(path)`: deletes every drawer param, then re-appends all
but the last followed by the new path; if no drawers existed, just appends
the new path. -/
def replaceDrawer (path : String) (loc : Location) : Location :=
  if (getAll "drawer" loc.search).length = 0 then
    { pathname := loc.pathname
      search := appendParam "drawer" path (deleteKey "drawer" loc.search) }
  else
    { pathname := loc.pathname
      search := (deleteKey "drawer" loc.search ++
          (getAll "drawer" loc.search).dropLast.map (fun p => ("drawer", p)))
        ++ [("drawer", path)] }

/-- `replaceDrawerStack(paths)`: deletes every drawer param and appends one
drawer param per element of `paths`, in order. -/
def replaceDrawerStack (paths : List String) (loc : Location) : Location :=
  { pathname := loc.pathname
    search := deleteKey "drawer" loc.search ++
      paths.map (fun p => ("drawer", p)) }

/-- `currentDrawer`: `drawerStack[drawerStack.length - 1] || null`. (For an
empty stack, JS indexes at `-1` and gets `undefined`, hence `null`; with
truncated `Nat` subtraction the lookup below is `[]\[0]?`, which is likewise
`none`.) -/
def currentDrawer (persisted : List String) : Option DrawerStackItem :=
  (deriveStack persisted)[(deriveStack persisted).length - 1]?

/-! ## Mutation sequences -/

/-- One public stack-store mutation. -/
inductive DrawerOp where
  | push (path : String)
  | pop
  | closeAll
  | replaceTop (path : String)
  | replaceAll (paths : List String)
deriving Repr, DecidableEq

/-- Applies one mutation to the current location. -/
def applyOp : DrawerOp → Location → Location
  | .push p => pushDrawer p
  | .pop => popDrawer
  | .closeAll => closeAllDrawers
  | .replaceTop p => replaceDrawer p
  | .replaceAll ps => replaceDrawerStack ps

/-- Applies a sequence of mutations in order. -/
def applyOps (ops : List DrawerOp) (loc : Location) : Location :=
  ops.foldl (fun l op => applyOp op l) loc

/-! ## Close choreography (`DrawerStack.tsx`, `handleDrawerClose`)

`handleDrawerClose(level)` marks the level as closing, flips its open flag,
and after the settle delay performs the persisted-state mutation:
`if (level === drawerStack.length - 1) popDrawer() else closeAllDrawers()`.
Only that mutation touches the persisted list; we embed it directly. -/

/-- The persisted-state mutation scheduled by `handleDrawerClose(level)`:
pop when the closing level is the current top
(`level === drawerStack.length - 1`), otherwise `closeAllDrawers`. (On an
empty stack JS compares `level` with `-1` and calls `closeAllDrawers`,
while truncated `Nat` subtraction sends level 0 to the pop branch; both
branches leave the empty persisted list unchanged, so the embedding agrees
with the code on every observable outcome.) -/
def handleDrawerCloseMutation (level : Nat) (loc : Location) : Location :=
  if level = (persistedList loc).length - 1 then popDrawer loc
  else closeAllDrawers loc

/-! ## Drag gesture (`CustomVerticalDrawer.tsx`)

`handleDragMove` clamps the vertical delta to non-negative
(`Math.max(0, deltaY)`) and stores it as the drag offset; `handleDragEnd`
compares the stored offset against `initialHeight * 0.3` with a strict
greater-than (`dragOffset > threshold`), closing on commit and resetting
the offset to `0` on cancel. JS numbers are modelled as exact rationals. -/

/-- `Math.max(0, deltaY)` from `handleDragMove`: only downward motion is
tracked, opposite motion reports offset 0. -/
def clampDelta (deltaY : ℚ) : ℚ := max 0 deltaY

/-- The commit threshold of `handleDragEnd`: `initialHeight * 0.3`. -/
def dragThreshold (initialHeight : ℚ) : ℚ := initialHeight * (3 / 10)

/-- `shouldClose` in `handleDragEnd`: `dragOffset > threshold` (strict). -/
def shouldClose (initialHeight dragOffset : ℚ) : Bool :=
  dragOffset > dragThreshold initialHeight

/-- Outcome of releasing a drag. -/
structure DragEndResult where
  /-- Whether `onOpenChange(false)` is called (a dismiss-close request). -/
  requestClose : Bool
  /-- The drag offset after release: unchanged on commit, reset to 0 on
  cancel (`setDragOffset(0)` in the else branch). -/
  dragOffset : ℚ
deriving Repr, DecidableEq

/-- `handleDragEnd` of `CustomVerticalDrawer.tsx`, as a function of the
panel extent recorded at drag start (`initialHeight.current`) and the
accumulated clamped offset (`dragOffset`). -/
def handleDragEnd (initialHeight dragOffset : ℚ) : DragEndResult :=
  if shouldClose initialHeight dragOffset then
    { requestClose := true, dragOffset := dragOffset }
  else
    { requestClose := false, dragOffset := 0 }

/-! ## Effective stack and depth (`DrawerStack.tsx` render) -/

/-- Index-aware filter for
`drawerStack.filter((_, i) => !closingDrawers.has(i))`, with `i` the running
index. -/
def filterNotClosing (closing : List Nat) (i : Nat) :
    List DrawerStackItem → List DrawerStackItem
  | [] => []
  | d :: rest =>
    if i ∈ closing then filterNotClosing closing (i + 1) rest
    else d :: filterNotClosing closing (i + 1) rest

/-- `effectiveStack`: the current stack with every position in the closing
set removed. -/
def effectiveStack (stack : List DrawerStackItem) (closing : List Nat) :
    List DrawerStackItem :=
  filterNotClosing closing 0 stack

/-- JS `Array.prototype.findIndex`: index of the first match, `-1` if none. -/
def findIndexJS (p : DrawerStackItem → Bool) (l : List DrawerStackItem) : Int :=
  match l.findIdx? p with
  | some i => (i : Int)
  | none => -1

/-- The depth-from-top used in the resting transform of `DrawerStack.tsx`:
`effectiveStack.length - 1 - effectiveIndex`, where `effectiveIndex` is
`effectiveStack.findIndex((d) => d.id === drawer.id)`. -/
def depthFromTop (stack : List DrawerStackItem) (closing : List Nat)
    (drawer : DrawerStackItem) : Int :=
  let eff := effectiveStack stack closing
  (eff.length : Int) - 1 - findIndexJS (fun d => d.id == drawer.id) eff

/-! ## Route resolver (`routeUtils.ts`, `DrawerContent`) -/

/-- A React Router `RouteObject`, restricted to the fields the resolver
reads: the optional path pattern, whether an element (view) is present
(views themselves are opaque), and the ordered children. -/
inductive RouteObject where
  | mk (path : Option String) (hasElement : Bool) (children : List RouteObject)
deriving Repr

/-- The optional path pattern of a route. -/
def RouteObject.path : RouteObject → Option String
  | .mk p _ _ => p

/-- Whether the route declares an element. -/
def RouteObject.hasElement : RouteObject → Bool
  | .mk _ el _ => el

/-- The children of a route. -/
def RouteObject.children : RouteObject → List RouteObject
  | .mk _ _ ch => ch

/-- One step of `.replace(/\/+/g, "/")`: keep a character unless it is a
slash immediately following a slash already kept. -/
def collapseSlashesStep (acc : List Char) (c : Char) : List Char :=
  if c = '/' ∧ acc.head? = some '/' then acc else c :: acc

/-- `s.replace(/\/+/g, "/")`: collapse every run of slashes to one. -/
def collapseSlashes (s : String) : String :=
  ⟨(s.data.foldl collapseSlashesStep []).reverse⟩

/-- The `fullPath` computation of `flattenRoutes`: JS
`route.path ? (parentPath === "/" ? (route.path === "/" ? "/" : "/" + route.path) : (parentPath + "/" + route.path).replace(/\/+/g, "/")) : parentPath`;
an absent or empty (falsy) path yields the parent path. -/
def fullPathOf (routePath : Option String) (parentPath : String) : String :=
  match routePath with
  | none => parentPath
  | some p =>
    if p = "" then parentPath
    else if parentPath = "/" then (if p = "/" then "/" else "/" ++ p)
    else collapseSlashes (parentPath ++ "/" ++ p)

/-- `flattenRoutes(routes, parentPath)`: depth-first flattening; each node
is emitted (with its full path substituted, keeping its other fields)
before its recursively flattened children, siblings in declared order. -/
def flattenRoutes : List RouteObject → String → List RouteObject
  | [], _ => []
  | .mk p el ch :: rest, parentPath =>
    let fullPath := fullPathOf p parentPath
    RouteObject.mk (some fullPath) el ch ::
      (flattenRoutes ch fullPath ++ flattenRoutes rest parentPath)

/-- `path.split("?")[0]`: the prefix of the path before the first question
mark. -/
def stripQuery (path : String) : String :=
  ⟨path.data.takeWhile (fun c => c ≠ '?')⟩

/-- Accumulator-style splitter: collects the characters of the current
segment (reversed) and emits a segment at every slash or at the end,
dropping empty segments. -/
def segsOfCharsAux (cur : List Char) : List Char → List String
  | [] => if cur = [] then [] else [String.mk cur.reverse]
  | c :: rest =>
    if c = '/' then
      if cur = [] then segsOfCharsAux [] rest
      else String.mk cur.reverse :: segsOfCharsAux [] rest
    else segsOfCharsAux (c :: cur) rest

/-- Splits a path into its non-empty slash-separated segments. -/
def pathSegments (s : String) : List String :=
  segsOfCharsAux [] s.data

/-- Whether a string starts with the given character. -/
def startsWithChar (c : Char) (s : String) : Bool :=
  match s.data with
  | [] => false
  | c' :: _ => c' = c

/-- Whether one pattern segment matches one concrete path segment: a
dynamic segment (starting with a colon) matches any segment, a static
segment must be equal. -/
def segMatches (pat seg : String) : Bool :=
  startsWithChar ':' pat || pat == seg

/-- Modelled from the spec: React Router's `matchPath` with `end: true`
(the library call in `findRouteAndMatch`; its source is not part of this
repository). Per the spec it performs an "exact full-path match …
requiring the match to consume the entire candidate path (no
partial/prefix matches)". The compiled pattern always begins with a
slash, so the candidate pathname must itself start with a slash, and
then every pattern segment must match the corresponding pathname segment
with none left over (trailing slashes are tolerated). -/
def matchPathEnd (pattern pathname : String) : Bool :=
  startsWithChar '/' pathname &&
    (pathSegments pattern).length = (pathSegments pathname).length &&
    (List.zip (pathSegments pattern) (pathSegments pathname)).all
      (fun pq => segMatches pq.1 pq.2)

/-- Whether `findRouteAndMatch`'s loop body accepts a route for the given
(query-stripped) pathname: routes with an absent or empty (falsy) path are
skipped (`if (!route.path) continue`), others are matched with
`matchPath({path, end: true}, pathname)`. -/
def routeMatchesAt (pathname : String) (r : RouteObject) : Bool :=
  match r.path with
  | none => false
  | some p => if p = "" then false else matchPathEnd p pathname

/-- `findRouteAndMatch(path, routes)`: strips the query suffix, then
returns the first route in the list that matches the whole pathname, or
none when no route matches. -/
def findRouteAndMatch (path : String) (routes : List RouteObject) :
    Option RouteObject :=
  routes.find? (routeMatchesAt (stripQuery path))

/-- The three ways `DrawerContent` can render a path. -/
inductive DrawerResolution where
  /-- The dedicated "root route cannot be displayed in a drawer"
  placeholder. -/
  | rootRejected
  /-- The "No route found for path" placeholder (also used when the matched
  route has no element). -/
  | notFound
  /-- The matched route's element is rendered. -/
  | resolved (route : RouteObject)
deriving Repr

/-- The resolution logic of `DrawerContent` (`DrawerStack.tsx`): the
literal root path is rejected before any matching; otherwise the path is
resolved against the flattened route tree, and a missing match or a match
without an element renders the not-found placeholder. -/
def resolveDrawerContent (path : String) (routes : List RouteObject) :
    DrawerResolution :=
  if path = "/" then .rootRejected
  else
    match findRouteAndMatch path (flattenRoutes routes "") with
    | none => .notFound
    | some r => if r.hasElement then .resolved r else .notFound

/-! ## Helper lemmas: stack derivation -/

theorem deriveStackAux_length (l : List String) :
    ∀ i, (deriveStackAux i l).length = l.length := by
  induction l with
  | nil => intro i; rfl
  | cons p rest ih => intro i; simp [deriveStackAux, ih]

theorem deriveStackAux_map_path (l : List String) :
    ∀ i, (deriveStackAux i l).map DrawerStackItem.path = l := by
  induction l with
  | nil => intro i; rfl
  | cons p rest ih => intro i; simp [deriveStackAux, ih]

theorem deriveStackAux_map_level (l : List String) :
    ∀ i, (deriveStackAux i l).map DrawerStackItem.level =
      List.range' i l.length := by
  induction l with
  | nil => intro i; rfl
  | cons p rest ih =>
    intro i
    simp [deriveStackAux, ih, List.range'_succ]

theorem deriveStackAux_getElem? (l : List String) :
    ∀ i j, (deriveStackAux i l)[j]? =
      l[j]?.map
        (fun v => DrawerStackItem.mk ("drawer-" ++ toString (i + j)) v (i + j)) := by
  induction l with
  | nil => intro i j; simp [deriveStackAux]
  | cons p rest ih =>
    intro i j
    cases j with
    | zero => simp [deriveStackAux]
    | succ j =>
      have harith : i + 1 + j = i + (j + 1) := by omega
      simp only [deriveStackAux, List.getElem?_cons_succ, ih (i + 1) j, harith]

theorem deriveStack_length (p : List String) :
    (deriveStack p).length = p.length :=
  deriveStackAux_length p 0

theorem deriveStack_map_path (p : List String) :
    (deriveStack p).map DrawerStackItem.path = p :=
  deriveStackAux_map_path p 0

theorem deriveStack_map_level (p : List String) :
    (deriveStack p).map DrawerStackItem.level = List.range p.length := by
  rw [deriveStack, deriveStackAux_map_level p 0, List.range_eq_range']

theorem deriveStack_getElem? (p : List String) (i : Nat) :
    (deriveStack p)[i]? =
      p[i]?.map (fun v => DrawerStackItem.mk ("drawer-" ++ toString i) v i) := by
  have h := deriveStackAux_getElem? p 0 i
  simpa [deriveStack] using h

/-! ## Helper lemmas: search-parameter operations -/

theorem getAll_append (k : String) (a b : SearchParams) :
    getAll k (a ++ b) = getAll k a ++ getAll k b := by
  simp [getAll, List.filter_append]

theorem getAll_deleteKey_self (k : String) (ps : SearchParams) :
    getAll k (deleteKey k ps) = [] := by
  unfold getAll deleteKey
  rw [List.filter_filter]
  have hfalse : List.filter
      (fun (a : String × String) => a.1 == k && !(a.1 == k)) ps = [] := by
    induction ps with
    | nil => rfl
    | cons kv rest ih =>
      rw [List.filter_cons]
      cases hb : (kv.1 == k) <;> simp [hb, ih]
  rw [hfalse]
  rfl

theorem getAll_deleteKey_ne (k k' : String) (ps : SearchParams)
    (h : k ≠ k') : getAll k (deleteKey k' ps) = getAll k ps := by
  unfold getAll deleteKey
  rw [List.filter_filter]
  congr 1
  apply List.filter_congr
  intro kv _
  by_cases hk : kv.1 = k
  · have h1 : (kv.1 == k) = true := by simp [hk]
    have h2 : (kv.1 == k') = false := by
      simp only [beq_eq_false_iff_ne, hk]
      exact h
    rw [h1, h2]
    rfl
  · have h1 : (kv.1 == k) = false := by
      simp only [beq_eq_false_iff_ne]
      exact hk
    rw [h1]
    rfl

theorem getAll_pairs_self (k : String) (xs : List String) :
    getAll k (xs.map (fun p => (k, p))) = xs := by
  induction xs with
  | nil => rfl
  | cons x rest ih => simpa [getAll] using ih

theorem getAll_pairs_ne (k k' : String) (xs : List String) (h : k ≠ k') :
    getAll k (xs.map (fun p => (k', p))) = [] := by
  induction xs with
  | nil => rfl
  | cons x rest ih =>
    have h2 : (k' == k) = false := by
      simp only [beq_eq_false_iff_ne]
      exact Ne.symm h
    simpa [getAll, h2] using ih

/-! ## Helper lemmas: persisted list under each mutator -/

theorem persistedList_pushDrawer (path : String) (loc : Location) :
    persistedList (pushDrawer path loc) = persistedList loc ++ [path] := by
  simp [persistedList, pushDrawer, appendParam, getAll_append, getAll]

theorem persistedList_popDrawer (loc : Location) :
    persistedList (popDrawer loc) = (persistedList loc).dropLast := by
  by_cases h : (getAll "drawer" loc.search).length = 0
  · have h0 : getAll "drawer" loc.search = [] := List.length_eq_zero.mp h
    rw [popDrawer, if_pos h]
    simp [persistedList, h0]
  · rw [popDrawer, if_neg h]
    show getAll "drawer" _ = _
    rw [getAll_append, getAll_deleteKey_self, getAll_pairs_self]
    simp [persistedList]

theorem popDrawer_of_empty (loc : Location)
    (h : persistedList loc = []) : popDrawer loc = loc := by
  have h0 : (getAll "drawer" loc.search).length = 0 := by
    simp [persistedList] at h
    simp [h]
  rw [popDrawer, if_pos h0]

theorem persistedList_closeAllDrawers (loc : Location) :
    persistedList (closeAllDrawers loc) = [] := by
  simp [persistedList, closeAllDrawers, getAll_deleteKey_self]

theorem persistedList_replaceDrawer (path : String) (loc : Location) :
    persistedList (replaceDrawer path loc) =
      (persistedList loc).dropLast ++ [path] := by
  by_cases h : (getAll "drawer" loc.search).length = 0
  · have h0 : getAll "drawer" loc.search = [] := List.length_eq_zero.mp h
    rw [replaceDrawer, if_pos h]
    show getAll "drawer" _ = _
    rw [appendParam, getAll_append, getAll_deleteKey_self]
    have h1 : getAll "drawer" [("drawer", path)] = [path] := by simp [getAll]
    rw [h1]
    simp [persistedList, h0]
  · rw [replaceDrawer, if_neg h]
    show getAll "drawer" _ = _
    rw [getAll_append, getAll_append, getAll_deleteKey_self, getAll_pairs_self]
    simp [persistedList, getAll]

theorem persistedList_replaceDrawerStack (paths : List String)
    (loc : Location) :
    persistedList (replaceDrawerStack paths loc) = paths := by
  simp only [persistedList, replaceDrawerStack]
  rw [getAll_append, getAll_deleteKey_self, getAll_pairs_self]
  simp

/-- Frame lemma: a non-drawer key sees through "delete all drawer params,
then re-append some drawer params". -/
theorem getAll_ne_frame (k : String) (h : k ≠ "drawer") (s : SearchParams)
    (xs : List String) :
    getAll k (deleteKey "drawer" s ++ xs.map (fun p => ("drawer", p))) =
      getAll k s := by
  rw [getAll_append, getAll_deleteKey_ne _ _ _ h, getAll_pairs_ne _ _ _ h]
  simp

/-! ## Helper lemmas: path and query handling -/

theorem takeWhile_append_of_all {α : Type} (pred : α → Bool)
    (l₁ l₂ : List α) (h : ∀ x ∈ l₁, pred x = true) :
    List.takeWhile pred (l₁ ++ l₂) = l₁ ++ List.takeWhile pred l₂ := by
  induction l₁ with
  | nil => simp
  | cons x xs ih =>
    have hx := h x (by simp)
    rw [List.cons_append, List.takeWhile_cons, if_pos hx, List.cons_append]
    rw [ih (fun y hy => h y (by simp [hy]))]

theorem stripQuery_of_no_query (p : String) (h : ∀ c ∈ p.data, c ≠ '?') :
    stripQuery p = p := by
  unfold stripQuery
  have hall : p.data.takeWhile (fun c => decide (c ≠ '?')) = p.data :=
    List.takeWhile_eq_self_iff.mpr (fun x hx => by simpa using h x hx)
  rw [hall]

theorem stripQuery_append_query (p q : String)
    (h : ∀ c ∈ p.data, c ≠ '?') : stripQuery (p ++ "?" ++ q) = p := by
  unfold stripQuery
  rw [String.data_append, String.data_append]
  have hq : ("?" : String).data = ['?'] := rfl
  rw [hq, List.append_assoc]
  rw [takeWhile_append_of_all _ _ _ (fun x hx => by simpa using h x hx)]
  simp [List.takeWhile_cons]

theorem matchPathEnd_empty_pathname (pattern : String) :
    matchPathEnd pattern "" = false := by
  have h : startsWithChar '/' "" = false := rfl
  simp [matchPathEnd, h]

theorem routeMatchesAt_empty_pathname (r : RouteObject) :
    routeMatchesAt "" r = false := by
  cases r with
  | mk p el ch =>
    cases p with
    | none => rfl
    | some s =>
      by_cases hs : s = ""
      · simp [routeMatchesAt, RouteObject.path, hs]
      · simp [routeMatchesAt, RouteObject.path, hs,
          matchPathEnd_empty_pathname]

theorem findRouteAndMatch_empty_path (routes : List RouteObject) :
    findRouteAndMatch "" routes = none := by
  unfold findRouteAndMatch
  have hs : stripQuery "" = "" := rfl
  rw [hs]
  exact List.find?_eq_none.mpr
    (fun r _ => by simp [routeMatchesAt_empty_pathname])

/-! ## Claim theorems -/

/-- C1: for every persisted drawer list `p` of length `n`, the derived stack
(`drawerStack`) has exactly `n` entries and the entry at index `i` equals
`{id: "drawer-" + i, path: p[i], level: i}`; consequently, after every
sequence of push/pop/replace/closeAll mutations, the levels are exactly
`0..n-1` with no gaps and each derived entry's path equals the corresponding
persisted element. -/
theorem C1_derived_stack_matches_persisted :
    (∀ p : List String, (deriveStack p).length = p.length ∧
      (∀ i v, p[i]? = some v →
        (deriveStack p)[i]? =
          some (DrawerStackItem.mk ("drawer-" ++ toString i) v i))) ∧
    (∀ ops loc,
      (deriveStack (persistedList (applyOps ops loc))).map
          DrawerStackItem.level =
        List.range (persistedList (applyOps ops loc)).length ∧
      (deriveStack (persistedList (applyOps ops loc))).map
          DrawerStackItem.path =
        persistedList (applyOps ops loc)) := by
  constructor
  · intro p
    refine ⟨deriveStack_length p, ?_⟩
    intro i v hv
    rw [deriveStack_getElem?, hv]
    rfl
  · intro ops loc
    exact ⟨deriveStack_map_level _, deriveStack_map_path _⟩

/-- Witness for C1 at the concrete persisted list `["/a", "/b"]`. -/
theorem C1_witness :
    (deriveStack ["/a", "/b"]).length = 2 ∧
    (deriveStack ["/a", "/b"])[1]? =
      some (DrawerStackItem.mk "drawer-1" "/b" 1) := by
  have h := C1_derived_stack_matches_persisted.1 ["/a", "/b"]
  exact ⟨h.1, h.2 1 "/b" rfl⟩

/-- C2 counterexample: with the 3-level stack `/a, /b, /c`, the close
sequence triggered at level 1 performs `closeAllDrawers()` and leaves an
empty persisted list — not a one-element list where level 0's path `/a`
survives, as the claim states. -/
theorem C2_counterexample :
    persistedList (handleDrawerCloseMutation 1 (Location.mk "/"
      [("drawer", "/a"), ("drawer", "/b"), ("drawer", "/c")])) = [] ∧
    persistedList (handleDrawerCloseMutation 1 (Location.mk "/"
      [("drawer", "/a"), ("drawer", "/b"), ("drawer", "/c")])) ≠ ["/a"] := by
  decide

/-- C2 (amended): closing a non-top level performs `closeAllDrawers()`,
which clears the entire persisted list — the levels below the closing one
do not survive; only closing the current top pops exactly the top entry. -/
theorem C2_nonTop_close_clears_whole_stack :
    (∀ loc level, level ≠ (persistedList loc).length - 1 →
      persistedList (handleDrawerCloseMutation level loc) = []) ∧
    (∀ loc level, level = (persistedList loc).length - 1 →
      persistedList (handleDrawerCloseMutation level loc) =
        (persistedList loc).dropLast) := by
  constructor
  · intro loc level h
    rw [handleDrawerCloseMutation, if_neg h, persistedList_closeAllDrawers]
  · intro loc level h
    rw [handleDrawerCloseMutation, if_pos h, persistedList_popDrawer]

/-- Witness for the amended C2 on the concrete 3-level stack. -/
theorem C2_witness :
    persistedList (handleDrawerCloseMutation 1 (Location.mk "/"
      [("drawer", "/a"), ("drawer", "/b"), ("drawer", "/c")])) = [] ∧
    persistedList (handleDrawerCloseMutation 2 (Location.mk "/"
      [("drawer", "/a"), ("drawer", "/b"), ("drawer", "/c")])) =
      ["/a", "/b"] := by
  constructor
  · exact C2_nonTop_close_clears_whole_stack.1 _ 1 (by decide)
  · have h := C2_nonTop_close_clears_whole_stack.2 (Location.mk "/"
      [("drawer", "/a"), ("drawer", "/b"), ("drawer", "/c")]) 2 (by decide)
    rw [h]
    decide

/-- C7: `pop()` removes exactly the last element of the persisted list, is a
silent no-op on an empty list (the location is untouched, not an error);
`closeAll()` on an already-empty stack leaves the persisted list unchanged,
and calling it twice has the same effect on the persisted list as once. -/
theorem C7_pop_and_closeAll_are_safe :
    (∀ loc, persistedList (popDrawer loc) = (persistedList loc).dropLast) ∧
    (∀ loc, persistedList loc = [] → popDrawer loc = loc) ∧
    (∀ loc, persistedList loc = [] →
      persistedList (closeAllDrawers loc) = persistedList loc) ∧
    (∀ loc, persistedList (closeAllDrawers (closeAllDrawers loc)) =
      persistedList (closeAllDrawers loc)) := by
  refine ⟨persistedList_popDrawer, popDrawer_of_empty, ?_, ?_⟩
  · intro loc h
    rw [persistedList_closeAllDrawers, h]
  · intro loc
    rw [persistedList_closeAllDrawers, persistedList_closeAllDrawers]

/-- Witness for C7 at a drawer-free location carrying an unrelated query
parameter. -/
theorem C7_witness :
    popDrawer (Location.mk "/" [("x", "1")]) = Location.mk "/" [("x", "1")] ∧
    persistedList (closeAllDrawers (Location.mk "/" [("x", "1")])) =
      persistedList (Location.mk "/" [("x", "1")]) := by
  constructor
  · exact C7_pop_and_closeAll_are_safe.2.1 _ (by decide)
  · exact C7_pop_and_closeAll_are_safe.2.2.1 _ (by decide)

/-- C8: `push(path)` appends `path` to the current persisted list (read at
call time: the second push sees the first push's result), duplicates are
legal, and pushing `/a` then `/b` from an empty state yields `[/a, /b]` with
top-of-stack `/b`; one subsequent `pop()` yields `[/a]`. -/
theorem C8_push_appends_fresh :
    (∀ loc path, persistedList (pushDrawer path loc) =
      persistedList loc ++ [path]) ∧
    (∀ loc path, persistedList (pushDrawer path (pushDrawer path loc)) =
      persistedList loc ++ [path, path]) ∧
    (∀ loc, persistedList loc = [] →
      persistedList (applyOps [.push "/a", .push "/b"] loc) = ["/a", "/b"] ∧
      currentDrawer (persistedList (applyOps [.push "/a", .push "/b"] loc)) =
        some (DrawerStackItem.mk "drawer-1" "/b" 1) ∧
      persistedList (applyOps [.push "/a", .push "/b", .pop] loc) =
        ["/a"]) := by
  refine ⟨fun loc path => persistedList_pushDrawer path loc, ?_, ?_⟩
  · intro loc path
    rw [persistedList_pushDrawer, persistedList_pushDrawer]
    simp
  · intro loc h
    have h1 : persistedList (applyOps [.push "/a", .push "/b"] loc) =
        ["/a", "/b"] := by
      show persistedList (pushDrawer "/b" (pushDrawer "/a" loc)) = _
      rw [persistedList_pushDrawer, persistedList_pushDrawer, h]
      rfl
    refine ⟨h1, ?_, ?_⟩
    · rw [h1]
      decide
    · show persistedList (popDrawer (pushDrawer "/b" (pushDrawer "/a" loc)))
        = _
      rw [persistedList_popDrawer, persistedList_pushDrawer,
        persistedList_pushDrawer, h]
      rfl

/-- Witness for C8 starting from a location with no drawers. -/
theorem C8_witness :
    persistedList (applyOps [DrawerOp.push "/a", DrawerOp.push "/b"]
      (Location.mk "/" [])) = ["/a", "/b"] ∧
    persistedList (applyOps [DrawerOp.push "/a", DrawerOp.push "/b",
      DrawerOp.pop] (Location.mk "/" [])) = ["/a"] := by
  have h := C8_push_appends_fresh.2.2 (Location.mk "/" []) rfl
  exact ⟨h.1, h.2.2⟩

/-- C9: `replaceDrawer(path)` replaces exactly the last element of the
persisted list, keeping all earlier elements in order, and on an empty list
it appends instead, yielding `[path]` rather than an error. -/
theorem C9_replaceDrawer_replaces_top :
    (∀ loc path, persistedList (replaceDrawer path loc) =
      (persistedList loc).dropLast ++ [path]) ∧
    (∀ loc path rest last, persistedList loc = rest ++ [last] →
      persistedList (replaceDrawer path loc) = rest ++ [path]) ∧
    (∀ loc path, persistedList loc = [] →
      persistedList (replaceDrawer path loc) = [path]) := by
  refine ⟨fun loc path => persistedList_replaceDrawer path loc, ?_, ?_⟩
  · intro loc path rest last h
    rw [persistedList_replaceDrawer, h, List.dropLast_concat]
  · intro loc path h
    rw [persistedList_replaceDrawer, h]
    rfl

/-- Witness for C9: replacing the top of `[/a, /b]` and replacing on an
empty stack. -/
theorem C9_witness :
    persistedList (replaceDrawer "/x" (Location.mk "/"
      [("drawer", "/a"), ("drawer", "/b")])) = ["/a", "/x"] ∧
    persistedList (replaceDrawer "/x" (Location.mk "/" [])) = ["/x"] := by
  constructor
  · exact C9_replaceDrawer_replaces_top.2.1 _ "/x" ["/a"] "/b" (by decide)
  · exact C9_replaceDrawer_replaces_top.2.2 _ "/x" rfl

/-- C10: every stack mutator navigates to a location with the same pathname
and with every query parameter under any key other than `drawer` unchanged
— only the list-valued `drawer` parameter is modified. -/
theorem C10_mutators_preserve_frame :
    ∀ loc (path : String) (paths : List String),
      ((pushDrawer path loc).pathname = loc.pathname ∧
       (popDrawer loc).pathname = loc.pathname ∧
       (closeAllDrawers loc).pathname = loc.pathname ∧
       (replaceDrawer path loc).pathname = loc.pathname ∧
       (replaceDrawerStack paths loc).pathname = loc.pathname) ∧
      ∀ k, k ≠ "drawer" →
        getAll k (pushDrawer path loc).search = getAll k loc.search ∧
        getAll k (popDrawer loc).search = getAll k loc.search ∧
        getAll k (closeAllDrawers loc).search = getAll k loc.search ∧
        getAll k (replaceDrawer path loc).search = getAll k loc.search ∧
        getAll k (replaceDrawerStack paths loc).search =
          getAll k loc.search := by
  intro loc path paths
  constructor
  · refine ⟨rfl, ?_, rfl, ?_, rfl⟩
    · by_cases h : (getAll "drawer" loc.search).length = 0
      · rw [popDrawer, if_pos h]
      · rw [popDrawer, if_neg h]
    · by_cases h : (getAll "drawer" loc.search).length = 0
      · rw [replaceDrawer, if_pos h]
      · rw [replaceDrawer, if_neg h]
  · intro k hk
    refine ⟨?_, ?_, ?_, ?_, ?_⟩
    · show getAll k (loc.search ++ [("drawer", path)]) = _
      have hc : getAll k [("drawer", path)] = [] := by
        simpa using getAll_pairs_ne k "drawer" [path] hk
      rw [getAll_append, hc]
      simp
    · by_cases h : (getAll "drawer" loc.search).length = 0
      · rw [popDrawer, if_pos h]
      · rw [popDrawer, if_neg h]
        exact getAll_ne_frame k hk loc.search _
    · exact getAll_deleteKey_ne _ _ _ hk
    · by_cases h : (getAll "drawer" loc.search).length = 0
      · rw [replaceDrawer, if_pos h]
        show getAll k (deleteKey "drawer" loc.search ++ [("drawer", path)])
          = _
        have := getAll_ne_frame k hk loc.search [path]
        simpa using this
      · rw [replaceDrawer, if_neg h]
        show getAll k ((deleteKey "drawer" loc.search ++
          ((getAll "drawer" loc.search).dropLast.map
            (fun p => ("drawer", p)))) ++ [("drawer", path)]) = _
        rw [getAll_append, getAll_ne_frame k hk loc.search _]
        have hc : getAll k [("drawer", path)] = [] := by
          simpa using getAll_pairs_ne k "drawer" [path] hk
        rw [hc]
        simp
    · exact getAll_ne_frame k hk loc.search paths

/-- Witness for C10: the unrelated key `x` is untouched by a push and a pop
at a concrete location. -/
theorem C10_witness :
    getAll "x" (pushDrawer "/p"
      (Location.mk "/" [("x", "1"), ("drawer", "/a")])).search =
      getAll "x" (Location.mk "/" [("x", "1"), ("drawer", "/a")]).search ∧
    getAll "x" (popDrawer
      (Location.mk "/" [("x", "1"), ("drawer", "/a")])).search =
      getAll "x" (Location.mk "/" [("x", "1"), ("drawer", "/a")]).search := by
  have h := (C10_mutators_preserve_frame
    (Location.mk "/" [("x", "1"), ("drawer", "/a")]) "/p" []).2 "x"
    (by decide)
  exact ⟨h.1, h.2.1⟩

/-- C3 counterexample: with panel extent 100, a release whose clamped delta
is exactly the 30% threshold (offset 30) does not commit — `handleDragEnd`
cancels (no close requested, offset reset to 0), because the code compares
with a strict greater-than. -/
theorem C3_counterexample :
    clampDelta 30 = dragThreshold 100 ∧
    handleDragEnd 100 (clampDelta 30) =
      { requestClose := false, dragOffset := 0 } := by
  have h : clampDelta 30 = dragThreshold 100 := by
    norm_num [clampDelta, dragThreshold]
  refine ⟨h, ?_⟩
  rw [h]
  simp [handleDragEnd, shouldClose, lt_irrefl]

/-- C3 (amended): a release commits (requests a dismiss-close) exactly when
the clamped delta is strictly greater than 30% of the extent recorded at
drag start; releasing at the threshold or below cancels, resetting the drag
offset to 0 and requesting no close. -/
theorem C3_commit_strictly_above_threshold :
    ∀ h d : ℚ,
      ((handleDragEnd h (clampDelta d)).requestClose = true ↔
        dragThreshold h < clampDelta d) ∧
      (handleDragEnd h (clampDelta d) =
          { requestClose := false, dragOffset := 0 } ↔
        clampDelta d ≤ dragThreshold h) ∧
      handleDragEnd h (dragThreshold h) =
        { requestClose := false, dragOffset := 0 } := by
  intro h d
  refine ⟨?_, ?_, ?_⟩
  · by_cases hc : dragThreshold h < clampDelta d <;>
      simp [handleDragEnd, shouldClose, hc]
  · by_cases hc : dragThreshold h < clampDelta d
    · simp [handleDragEnd, shouldClose, hc, not_le.mpr hc]
    · simp [handleDragEnd, shouldClose, hc, not_lt.mp hc]
  · simp [handleDragEnd, shouldClose, lt_irrefl]

/-- C4 counterexample: in the 3-level stack `/a, /b, /c` with the middle
level (index 1) marked closing, the top level's depth-from-top is 0 both
before and after the mark — it does not decrease by one as the claim
states. -/
theorem C4_counterexample :
    depthFromTop (deriveStack ["/a", "/b", "/c"]) []
      (DrawerStackItem.mk "drawer-2" "/c" 2) = 0 ∧
    depthFromTop (deriveStack ["/a", "/b", "/c"]) [1]
      (DrawerStackItem.mk "drawer-2" "/c" 2) = 0 ∧
    ¬ (depthFromTop (deriveStack ["/a", "/b", "/c"]) [1]
        (DrawerStackItem.mk "drawer-2" "/c" 2) =
       depthFromTop (deriveStack ["/a", "/b", "/c"]) []
        (DrawerStackItem.mk "drawer-2" "/c" 2) - 1) := by
  decide

/-- C4 (amended): for every 3-level stack whose middle level enters Closing
(while the persisted stack is unchanged), it is the levels below the closing
one that step down: the bottom level's depth-from-top decreases by one (from
2 to 1), while the top level's depth-from-top is 0 both before and after
(it is already the top, so it cannot decrease). -/
theorem C4_depth_exclusion_shifts_lower_levels :
    ∀ p0 p1 p2 : String,
      depthFromTop (deriveStack [p0, p1, p2]) []
        (DrawerStackItem.mk "drawer-2" p2 2) = 0 ∧
      depthFromTop (deriveStack [p0, p1, p2]) [1]
        (DrawerStackItem.mk "drawer-2" p2 2) = 0 ∧
      depthFromTop (deriveStack [p0, p1, p2]) []
        (DrawerStackItem.mk "drawer-0" p0 0) = 2 ∧
      depthFromTop (deriveStack [p0, p1, p2]) [1]
        (DrawerStackItem.mk "drawer-0" p0 0) = 1 := by
  intro p0 p1 p2
  exact ⟨rfl, rfl, rfl, rfl⟩

/-- C5 counterexample: resolving the empty path against the empty route
tree yields the not-found placeholder, not the RootRejected placeholder —
only the literal `"/"` is special-cased by `DrawerContent`. -/
theorem C5_counterexample :
    resolveDrawerContent "" [] = DrawerResolution.notFound ∧
    resolveDrawerContent "" [] ≠ DrawerResolution.rootRejected := by
  have h : resolveDrawerContent "" [] = DrawerResolution.notFound := by
    simp [resolveDrawerContent, findRouteAndMatch, flattenRoutes]
  refine ⟨h, ?_⟩
  rw [h]
  intro hc
  exact DrawerResolution.noConfusion hc

/-- C5 (amended): resolving the literal path `"/"` yields RootRejected for
every route tree — even one whose root pattern would match it — but the
empty path is not special-cased: it falls through to route matching, where
no flattened pattern can match it, and yields the not-found placeholder. -/
theorem C5_only_slash_is_root_rejected :
    (∀ routes, resolveDrawerContent "/" routes =
      DrawerResolution.rootRejected) ∧
    (∀ routes, resolveDrawerContent "" routes =
      DrawerResolution.notFound) ∧
    (findRouteAndMatch "/"
        (flattenRoutes [RouteObject.mk (some "/") true []] "") =
      some (RouteObject.mk (some "/") true []) ∧
     resolveDrawerContent "/" [RouteObject.mk (some "/") true []] =
      DrawerResolution.rootRejected) := by
  refine ⟨?_, ?_, ?_, ?_⟩
  · intro routes
    rw [resolveDrawerContent, if_pos rfl]
  · intro routes
    rw [resolveDrawerContent, if_neg (by decide),
      findRouteAndMatch_empty_path]
  · simp [flattenRoutes, fullPathOf]
    rfl
  · rw [resolveDrawerContent, if_pos rfl]

/-- C6: `findRouteAndMatch` strips any query-string suffix before matching,
requires the match to consume the entire path (pattern `/profile` matches
`/profile` but not `/profile/edit`), returns the first match in the
flattened (pre-order) list, and signals no-match (`undefined`) exactly when
no entry matches. -/
theorem C6_findRouteAndMatch_semantics :
    (∀ p q routes, (∀ c ∈ p.data, c ≠ '?') →
      findRouteAndMatch (p ++ "?" ++ q) routes =
        findRouteAndMatch p routes) ∧
    (matchPathEnd "/profile" "/profile" = true ∧
     matchPathEnd "/profile" "/profile/edit" = false ∧
     findRouteAndMatch "/profile?x=1"
        [RouteObject.mk (some "/profile") true []] =
      findRouteAndMatch "/profile"
        [RouteObject.mk (some "/profile") true []]) ∧
    (∀ path l₁ r l₂,
      (∀ x ∈ l₁, routeMatchesAt (stripQuery path) x = false) →
      routeMatchesAt (stripQuery path) r = true →
      findRouteAndMatch path (l₁ ++ r :: l₂) = some r) ∧
    (∀ path routes, findRouteAndMatch path routes = none ↔
      ∀ r ∈ routes, routeMatchesAt (stripQuery path) r = false) := by
  refine ⟨?_, ⟨rfl, rfl, rfl⟩, ?_, ?_⟩
  · intro p q routes h
    unfold findRouteAndMatch
    rw [stripQuery_append_query p q h, stripQuery_of_no_query p h]
  · intro path l₁ r l₂ hall hr
    unfold findRouteAndMatch
    induction l₁ with
    | nil => exact List.find?_cons_of_pos _ hr
    | cons x xs ih =>
      rw [List.cons_append, List.find?_cons_of_neg]
      · exact ih (fun y hy => hall y (by simp [hy]))
      · simp [hall x (by simp)]
  · intro path routes
    unfold findRouteAndMatch
    rw [List.find?_eq_none]
    simp [Bool.not_eq_true]

/-- Witness for C6: the query suffix `?x=1` is stripped, and the first (and
only) matching entry of a concrete flattened list is returned. -/
theorem C6_witness :
    findRouteAndMatch ("/profile" ++ "?" ++ "x=1")
      [RouteObject.mk (some "/profile") true []] =
    findRouteAndMatch "/profile"
      [RouteObject.mk (some "/profile") true []] ∧
    findRouteAndMatch "/profile"
      ([] ++ RouteObject.mk (some "/profile") true [] :: []) =
      some (RouteObject.mk (some "/profile") true []) := by
  constructor
  · exact C6_findRouteAndMatch_semantics.1 "/profile" "x=1" _ (by decide)
  · exact C6_findRouteAndMatch_semantics.2.2.1 "/profile" [] _ []
      (by simp) rfl

end DrawerStack
